import Mathlib

/-!
Shallow embedding of `src/index.js` (guardian360-microapi): a four-endpoint
aggregation service.  Each endpoint handler is modelled as a pure function of

  * the outcome of its single bounded fetch (an `Except Unit` value: the code
    collapses network errors, non-2xx statuses, body-parse failures and
    timeouts into one opaque failure caught by the handler's `try/catch`),
  * its query parameters (each an `Option String`), and
  * an environment `Env` holding the host clock (`Date.now()`) and the host
    date facilities (`new Date(string)` parsing and `toISOString`).

JavaScript values that flow through the gov.uk handler are modelled by the
`JSVal` inductive (the handler probes a JSON document of arbitrary shape);
the other three upstream payloads are modelled by typed structures whose
`Option` fields stand for possibly-absent (`undefined`) JSON fields.
JS-specific semantics modelled explicitly: `||` keys on truthiness (so the
empty string and `undefined` both fall through), `??` keys on nullishness,
property access on `null`/`undefined` throws, string interpolation renders
`undefined` as `"undefined"`, `Array#join` renders absent entries as `""`,
and `new Date(s).toISOString()` throws when `s` is unparseable.
-/

/-- A JavaScript value, as handled by the gov.uk adapter and the normalizer:
`undefined` is JS `undefined` (an absent object field), the rest mirror JSON. -/
inductive JSVal where
  | undefined
  | null
  | bool (b : Bool)
  | num (n : Int)
  | str (s : String)
  | arr (elems : List JSVal)
  | obj (fields : List (String × JSVal))

/-- JS truthiness: `undefined`, `null`, `false`, `0` and `""` are falsy. -/
def truthy : JSVal → Bool
  | .undefined => false
  | .null => false
  | .bool b => b
  | .num n => !(n == 0)
  | .str s => !(s == "")
  | _ => true

/-- JS `a || b` (value-returning, truthiness-keyed). -/
def jsOr (a b : JSVal) : JSVal := if truthy a then a else b

/-- JS `a ?? b` (value-returning, nullish-keyed). -/
def nullishOr (a b : JSVal) : JSVal :=
  match a with
  | .undefined => b
  | .null => b
  | _ => a

/-- JS property access `v.k`: throws (TypeError) when the base is
`null`/`undefined`, yields `undefined` for a missing key or a non-object. -/
def jsGet (v : JSVal) (k : String) : Except Unit JSVal :=
  match v with
  | .undefined => .error ()
  | .null => .error ()
  | .obj fs => .ok ((fs.lookup k).getD .undefined)
  | _ => .ok .undefined

/-- JS optional chaining `v?.k`: `undefined` on a nullish base, never throws. -/
def optChain (v : JSVal) (k : String) : JSVal :=
  match v with
  | .undefined => .undefined
  | .null => .undefined
  | .obj fs => (fs.lookup k).getD .undefined
  | _ => .undefined

/-- JS string coercion of a possibly-`undefined` string (as in
`"prefix:" + x` or a template literal): `undefined` renders as `"undefined"`. -/
def jsStr : Option String → String
  | none => "undefined"
  | some s => s

/-- JS `a || b` restricted to possibly-`undefined` strings: a present
non-empty string is kept, `undefined` and `""` fall through to `b`. -/
def jsOrO (a b : Option String) : Option String :=
  match a with
  | some s => if s = "" then b else a
  | none => b

/-- An `Option String` field lifted into the JS value world: an absent field
is `undefined`, a present one is the string itself. -/
def optStr : Option String → JSVal
  | none => .undefined
  | some s => .str s

/-- JS truthiness of a possibly-`undefined` string: `undefined` and `""`
are falsy. -/
def strTruthy : Option String → Bool
  | none => false
  | some s => !(s == "")

/-- The argument/result shape of the `item` normalizer: a JS object literal
with these nine keys, any of which an adapter may leave `undefined`. -/
structure ItemObj where
  id : JSVal := .undefined
  ts : JSVal := .undefined
  source : JSVal := .undefined
  title : JSVal := .undefined
  summary : JSVal := .undefined
  severity : JSVal := .undefined
  links : JSVal := .undefined
  lat : JSVal := .undefined
  lng : JSVal := .undefined

/-- The normalizer (src/index.js lines 51-57): copies
`id, ts, source, title, summary, lat, lng` verbatim, applies
`severity ?? 3` and `links || []`. -/
def item (o : ItemObj) : ItemObj :=
  { id := o.id, ts := o.ts, source := o.source,
    title := o.title, summary := o.summary,
    severity := nullishOr o.severity (.num 3),
    links := jsOr o.links (.arr []),
    lat := o.lat, lng := o.lng }

/-- The host environment of one request: the clock and the JS `Date`
facilities (external collaborators of the core, per the spec). -/
structure Env where
  /-- `Date.now()`, an epoch-milliseconds value. -/
  nowMs : Int
  /-- `Date#toISOString` on a valid date value. -/
  toISO : Int → String
  /-- `new Date(s)` for a string `s`: `some` epoch value when the host can
  parse `s`, `none` for an Invalid Date (whose `toISOString` throws). -/
  parseDate : String → Option Int

/-- ASCII lowering of one char, modelling `String#toLowerCase` on the
ASCII range (all keywords in the code are ASCII). -/
def lowChar (c : Char) : Char :=
  if 65 ≤ c.toNat ∧ c.toNat ≤ 90 then Char.ofNat (c.toNat + 32) else c

/-- Lowercasing `String#toLowerCase`, modelled on the ASCII range. -/
def toLowerCase (s : String) : String := ⟨s.data.map lowChar⟩

/-- Substring test: does `needle` occur contiguously in the second list?
Models both `String#includes` and an alternation regex `/(a|b|…)/.test`. -/
def isSubstr (needle : List Char) : List Char → Bool
  | [] => needle.isEmpty
  | c :: rest => needle.isPrefixOf (c :: rest) || isSubstr needle rest

/-- Does `t` contain any of the keywords as a substring?  Models
`/(k1|k2|…)/.test(t)`. -/
def containsAny (t : String) (kws : List String) : Bool :=
  kws.any fun k => isSubstr k.data t.data

/-- Classifier `kwSeverity` (src/index.js lines 44-49): lowercase the text, then
keyword-match with first-match-wins priority 5, 4, default 3. -/
def kwSeverity (s : String) : Nat :=
  let t := toLowerCase s
  if containsAny t ["bomb", "explosion", "blast", "airstrike"] then 5
  else if containsAny t ["terror", "shooting", "kidnap", "abduction", "riot",
                         "violent protest", "unrest"] then 4
  else 3

/-- Classifier `kwSeverity` as called with a possibly-`undefined` argument: the default
parameter `s = ""` substitutes the empty string, so it never throws. -/
def kwSeverityJS : Option String → Nat
  | none => kwSeverity ""
  | some s => kwSeverity s

/-- JS `parseInt(s, 10)`: skip whitespace, optional sign, then the longest
leading digit run; `none` models the `NaN` result when no digits follow. -/
def jsParseInt10 (s : String) : Option Int :=
  let cs := s.data.dropWhile fun c => c = ' ' ∨ c = '\t' ∨ c = '\n' ∨ c = '\r'
  match cs with
  | '-' :: rest => (parseDigits rest).map (fun n => -(n : Int))
  | '+' :: rest => (parseDigits rest).map (fun n => (n : Int))
  | _ => (parseDigits cs).map (fun n => (n : Int))
where
  /-- The longest leading digit run as a number; `none` when there is none. -/
  parseDigits (cs : List Char) : Option Nat :=
    let digits := cs.takeWhile fun c => '0' ≤ c ∧ c ≤ '9'
    if digits.isEmpty then none
    else some (digits.foldl (fun acc c => acc * 10 + (c.toNat - 48)) 0)

/-- Clamp `Math.max(lo, Math.min(hi, x))` where `x` may be `NaN` (`none`):
both `Math.min` and `Math.max` propagate `NaN`. -/
def clampNaN (lo hi : Int) : Option Int → Option Int
  | none => none
  | some v => some (max lo (min hi v))

/-- Default `req.query.x || "d"`: an absent query parameter and the empty string
both fall back to the default literal. -/
def qstrOr (q : Option String) (d : String) : String :=
  match q with
  | none => d
  | some s => if s = "" then d else s

/-- Parsing of `days` for `/v1/reliefweb/za` (src/index.js line 110):
`Math.max(1, Math.min(60, parseInt(req.query.days || "21", 10)))`. -/
def rwDays (q : Option String) : Option Int :=
  clampNaN 1 60 (jsParseInt10 (qstrOr q "21"))

/-- Parsing of `hours` for `/v1/gdelt` (src/index.js line 155):
`Math.max(1, Math.min(168, parseInt(req.query.hours || "24", 10)))`. -/
def gdeltHours (q : Option String) : Option Int :=
  clampNaN 1 168 (jsParseInt10 (qstrOr q "24"))

/-! ### Government travel-advice adapter, `GET /v1/gov/uk/za` (lines 63-83) -/

/-- The adapt step of `/v1/gov/uk/za` on a fetched-and-parsed document of any
shape: `const d = data?.details || {}`, the `change` fallback chain (whose
`data.public_updated_at` access throws when `data` is nullish), then the one
`item({...})` with fixed id, title, severity and links. -/
def govukAdapt (env : Env) (data : JSVal) : Except Unit ItemObj :=
  let d := jsOr (optChain data "details") (.obj [])
  match jsGet d "latest_update" with
  | .error e => .error e
  | .ok lu =>
  match jsGet (jsOr lu (.obj [])) "published" with
  | .error e => .error e
  | .ok pub =>
  match
    (if truthy pub then .ok pub
     else
       match jsGet data "public_updated_at" with
       | .error e => .error e
       | .ok pu => .ok (if truthy pu then pu else JSVal.str (env.toISO env.nowMs))
     : Except Unit JSVal) with
  | .error e => .error e
  | .ok change =>
  match jsGet d "change_description" with
  | .error e => .error e
  | .ok cd =>
  match jsGet d "summary" with
  | .error e => .error e
  | .ok ds =>
  .ok (item
    { id := .str "govuk:za",
      ts := change,
      source := .str "gov.uk",
      title := .str "UK travel advice – South Africa",
      summary := jsOr (jsOr cd ds) (.str "Travel advice"),
      severity := .num 3,
      links := .arr [.str "https://www.gov.uk/foreign-travel-advice/south-africa"] })

/-- The `/v1/gov/uk/za` handler: `try { …; res.json([out]) } catch { res.json([]) }`,
as a function from the fetch outcome to `(status, body)`. -/
def govukHandler (env : Env) (fetched : Except Unit JSVal) : Nat × List ItemObj :=
  match fetched with
  | .error _ => (200, [])
  | .ok data =>
    match govukAdapt env data with
    | .error _ => (200, [])
    | .ok out => (200, [out])

/-! ### Government advisory RSS adapter, `GET /v1/us/travel` (lines 85-106) -/

/-- One `<guid>` node as produced by xml2js: its text sits in the `_`
property (modelled as `text`), absent when the node is empty. -/
structure RssGuid where
  text : Option String := none

/-- One `<item>` node as produced by xml2js: every child tag is wrapped in
an array, absent tags give an absent (`undefined`) property. -/
structure RssItem where
  title : List String := []
  description : List String := []
  guid : List RssGuid := []
  link : List String := []
  pubDate : List String := []

/-- One `<channel>` node: `item` is `undefined` when the channel is empty. -/
structure RssChannel where
  item : Option (List RssItem) := none

/-- The `<rss>` node: xml2js wraps the channel in an array. -/
structure RssRss where
  channel : List RssChannel := []

/-- A parsed RSS document: `rss` is absent when the root tag differs. -/
structure RssDoc where
  rss : Option RssRss := none

/-- Extraction `j?.rss?.channel?.[0]?.item || []` (line 89). -/
def rssItems (j : RssDoc) : List RssItem :=
  match j.rss with
  | none => []
  | some r =>
    match r.channel.head? with
    | none => []
    | some c => c.item.getD []

/-- The relevance filter (lines 90-92): title or description contains
"south africa" after lowercasing, absent fields treated as `""`. -/
def rssMatchesZA (x : RssItem) : Bool :=
  let title := toLowerCase ((x.title.head?).getD "")
  let descr := toLowerCase ((x.description.head?).getD "")
  isSubstr "south africa".data title.data || isSubstr "south africa".data descr.data

/-- Tag-removal scan, modelling `replace(/<[^>]+>/g, "")`: outside any tag
(state `none`) characters are kept and a `<` opens a candidate tag; inside
one (state `some buf`, the characters seen since the `<`, reversed) a `>`
closes it — deleting the whole `<…>` run when it held at least one
character (`[^>]+`), while an immediate `>` (empty tag) and an unclosed
trailing `<…` are kept verbatim, as the regex leaves them unmatched. -/
def stripAux : List Char → Option (List Char) → List Char
  | [], none => []
  | [], some buf => '<' :: buf.reverse
  | c :: rest, none =>
    if c = '<' then stripAux rest (some []) else c :: stripAux rest none
  | c :: rest, some buf =>
    if c = '>' then
      if buf.isEmpty then '<' :: '>' :: stripAux rest none
      else stripAux rest none
    else stripAux rest (some (c :: buf))

/-- The summary derivation (line 98): strip the HTML tags from the
description, then `slice(0, 280)`. -/
def stripHtml280 (s : String) : String := ⟨(stripAux s.data none).take 280⟩

/-- Date derivation `new Date(x.pubDate?.[0] || Date.now()).toISOString()`
(line 95): an absent or empty publish date falls back to the clock; a
present but unparseable one makes `toISOString` throw on the Invalid
Date. -/
def usTs (env : Env) (x : RssItem) : Except Unit String :=
  match x.pubDate.head? with
  | some s =>
    if s = "" then .ok (env.toISO env.nowMs)
    else
      match env.parseDate s with
      | some t => .ok (env.toISO t)
      | none => .error ()
  | none => .ok (env.toISO env.nowMs)

/-- The `item({...})` literal of lines 93-101, given the already-computed
`ts` string. -/
def usItemWith (x : RssItem) (ts : String) : ItemObj :=
  item
    { id := .str ("us:travel:" ++
        jsStr (jsOrO (x.guid.head?.bind (·.text)) (jsOrO x.link.head? x.title.head?))),
      ts := .str ts,
      source := .str "travel.state.gov",
      title := .str (jsStr (jsOrO x.title.head? (some "US Travel Advisory"))),
      summary := .str (stripHtml280 ((x.description.head?).getD "")),
      severity := .num 3,
      links := .arr [.str (jsStr (jsOrO x.link.head? (some "https://travel.state.gov")))] }

/-- Adapt one retained RSS item; the only throwing step is the date. -/
def usAdaptItem (env : Env) (x : RssItem) : Except Unit ItemObj :=
  match usTs env x with
  | .error e => .error e
  | .ok ts => .ok (usItemWith x ts)

/-- JS `Array#map` under exceptions: left-to-right, the first thrown
exception aborts the whole map. -/
def mapEx {α β : Type} (f : α → Except Unit β) : List α → Except Unit (List β)
  | [] => .ok []
  | x :: rest =>
    match f x with
    | .error e => .error e
    | .ok y =>
      match mapEx f rest with
      | .error e => .error e
      | .ok ys => .ok (y :: ys)

/-- The filter-then-map of lines 89-101. -/
def usAdapt (env : Env) (j : RssDoc) : Except Unit (List ItemObj) :=
  mapEx (usAdaptItem env) ((rssItems j).filter rssMatchesZA)

/-- The `/v1/us/travel` handler: fetch text, parse XML (both failure modes in
the fetch outcome), adapt, `res.json(items.slice(0, 5))`; any caught throw
yields `res.json([])`. -/
def usHandler (env : Env) (fetched : Except Unit RssDoc) : Nat × List ItemObj :=
  match fetched with
  | .error _ => (200, [])
  | .ok j =>
    match usAdapt env j with
    | .error _ => (200, [])
    | .ok items => (200, items.take 5)

/-! ### Situation-reports adapter, `GET /v1/reliefweb/za` (lines 108-150) -/

/-- One entry of a record's `theme` array; `name` may be absent. -/
structure RwTheme where
  name : Option String := none

/-- The `fields` object of one report record; every field may be absent.
`dateCreated` models the `"date.created"` key. -/
structure RwFields where
  title : Option String := none
  url : Option String := none
  dateCreated : Option String := none
  theme : Option (List RwTheme) := none

/-- One record of the reports response. -/
structure RwRecord where
  id : Option String := none
  fields : Option RwFields := none

/-- The reports response document: `data?.data || []` reads the `data` key. -/
structure RwDoc where
  data : Option (List RwRecord) := none

/-- Join `Array#join(", ")`: absent (`undefined`/`null`) entries render as `""`. -/
def joinComma : List (Option String) → String
  | [] => ""
  | [x] => x.getD ""
  | x :: rest => x.getD "" ++ ", " ++ joinComma rest

/-- Theme list `(f.theme || []).map(x => x.name).join(", ")` (line 135). -/
def rwThemes (f : RwFields) : String :=
  joinComma ((f.theme.getD []).map (·.name))

/-- Test `/Epidemic|Conflict|Security|Protection/i.test(themes)` (line 142). -/
def rwSevTest (themes : String) : Bool :=
  containsAny (toLowerCase themes) ["epidemic", "conflict", "security", "protection"]

/-- The per-record mapping of lines 133-145: `const f = d.fields || {}`, the
joined theme list, then `item({...})`; `ts`, `title` and the one links entry
are copied verbatim and stay absent when the record lacks them. -/
def rwAdaptRecord (d : RwRecord) : ItemObj :=
  let f := d.fields.getD {}
  let themes := rwThemes f
  item
    { id := .str ("rw:" ++ jsStr d.id),
      ts := optStr f.dateCreated,
      source := .str "reliefweb",
      title := optStr f.title,
      summary := .str themes,
      severity := .num (if rwSevTest themes then 4 else 3),
      links := .arr [optStr f.url] }

/-- The `/v1/reliefweb/za` handler.  The clamped `days` value only shapes the
upstream request body (`now-<days>d`), never the response mapping, so the
handler is a function of the fetch outcome alone; `rwDays` above embeds the
parameter parsing of line 110. -/
def rwHandler (fetched : Except Unit RwDoc) : Nat × List ItemObj :=
  match fetched with
  | .error _ => (200, [])
  | .ok doc => (200, (doc.data.getD []).map rwAdaptRecord)

/-! ### News-events adapter, `GET /v1/gdelt` (lines 152-172) -/

/-- One article of the news search response; every field may be absent. -/
structure GdeltArticle where
  url : Option String := none
  title : Option String := none
  seendate : Option String := none
  timestamp : Option String := none
  domain : Option String := none
  sourceCountry : Option String := none

/-- The news search response document: `data?.articles || []`. -/
structure GdeltDoc where
  articles : Option (List GdeltArticle) := none

/-- Date derivation `new Date(a.seendate || a.timestamp || Date.now()).toISOString()`
(line 161): an absent/empty chain falls back to the clock; a present but
unparseable date string makes `toISOString` throw. -/
def gdeltTs (env : Env) (a : GdeltArticle) : Except Unit String :=
  match jsOrO a.seendate a.timestamp with
  | some s =>
    if s = "" then .ok (env.toISO env.nowMs)
    else
      match env.parseDate s with
      | some t => .ok (env.toISO t)
      | none => .error ()
  | none => .ok (env.toISO env.nowMs)

/-- The `item({...})` literal of lines 159-167, given the computed `ts`. -/
def gdeltItemWith (a : GdeltArticle) (ts : String) : ItemObj :=
  item
    { id := .str ("gdelt:" ++ jsStr (jsOrO a.url a.title)),
      ts := .str ts,
      source := .str "gdelt",
      title := optStr a.title,
      summary :=
        if strTruthy a.sourceCountry then
          .str (jsStr a.domain ++ " • " ++ jsStr a.sourceCountry)
        else optStr a.domain,
      severity := .num (kwSeverity (jsStr a.title ++ " " ++ jsStr a.url)),
      links := .arr [optStr a.url] }

/-- Adapt one article; the only throwing step is the date. -/
def gdeltAdaptArticle (env : Env) (a : GdeltArticle) : Except Unit ItemObj :=
  match gdeltTs env a with
  | .error e => .error e
  | .ok ts => .ok (gdeltItemWith a ts)

/-- The map of lines 159-167 over `data?.articles || []`. -/
def gdeltAdapt (env : Env) (doc : GdeltDoc) : Except Unit (List ItemObj) :=
  mapEx (gdeltAdaptArticle env) (doc.articles.getD [])

/-- The `/v1/gdelt` handler.  The `q` and clamped `hours` parameters only
shape the upstream request URL, never the response mapping; `gdeltHours`
above embeds the parameter parsing of line 155. -/
def gdeltHandler (env : Env) (fetched : Except Unit GdeltDoc) : Nat × List ItemObj :=
  match fetched with
  | .error _ => (200, [])
  | .ok doc =>
    match gdeltAdapt env doc with
    | .error _ => (200, [])
    | .ok items => (200, items)

/-! ### Statement-side helpers -/

/-- Two immediately successive calls of the same handler on the same inputs
(no server-side state exists between them). -/
def callTwice {α β : Type} (h : α → β) (a : α) : β × β := (h a, h a)

/-- The item §4.4 of the spec describes for the gov.uk endpoint, written
with the non-throwing accessor `optChain`: `ts` from
`details.latest_update.published`, else the top-level `public_updated_at`,
else the clock; `summary` from `details.change_description`, else
`details.summary`, else the placeholder; fixed id, title, severity, links. -/
def govukExpected (env : Env) (data : JSVal) : ItemObj :=
  let d := jsOr (optChain data "details") (.obj [])
  let pub := optChain (jsOr (optChain d "latest_update") (.obj [])) "published"
  let change := jsOr pub (jsOr (optChain data "public_updated_at")
    (.str (env.toISO env.nowMs)))
  item
    { id := .str "govuk:za",
      ts := change,
      source := .str "gov.uk",
      title := .str "UK travel advice – South Africa",
      summary := jsOr (jsOr (optChain d "change_description") (optChain d "summary"))
        (.str "Travel advice"),
      severity := .num 3,
      links := .arr [.str "https://www.gov.uk/foreign-travel-advice/south-africa"] }

/-- A value of `usItemWith` usable in statements: the date actually used
when the item's date is missing or parseable (`usTs` succeeded). -/
def usItemOf (env : Env) (x : RssItem) : ItemObj :=
  usItemWith x ((usTs env x).toOption.getD (env.toISO env.nowMs))

/-- Is the item's publish date missing, empty, or parseable?  Exactly when
this holds does `usAdaptItem` not throw. -/
def usDateOk (env : Env) (x : RssItem) : Bool :=
  match x.pubDate.head? with
  | some s => s = "" || (env.parseDate s).isSome
  | none => true

/-- Analogue of `usDateOk` for the news-events adapter: is the
`a.seendate || a.timestamp` chain empty, absent, or parseable? -/
def gdeltDateOk (env : Env) (a : GdeltArticle) : Bool :=
  match jsOrO a.seendate a.timestamp with
  | some s => s = "" || (env.parseDate s).isSome
  | none => true

/-- The well-formedness the normalizer is meant to guarantee on the fields
it controls: a string `id`, the fixed `source` tag, an integer `severity`
within `[1,5]`, and a `links` sequence. -/
def normalOut (src : String) (it : ItemObj) : Prop :=
  (∃ s, it.id = .str s) ∧
  it.source = .str src ∧
  (∃ n : Int, it.severity = .num n ∧ 1 ≤ n ∧ n ≤ 5) ∧
  (∃ l, it.links = .arr l)

/-! ### Concrete fixtures used by witnesses and counterexamples -/

/-- A concrete host environment: clock at epoch 0, a trivial ISO renderer,
and a date parser that accepts nothing (every date string is an Invalid
Date on this host). -/
def env₀ : Env :=
  { nowMs := 0, toISO := fun n => "iso:" ++ toString n, parseDate := fun _ => none }

/-- A concrete RSS feed with one matching item whose publish date is
present but unparseable on `env₀`. -/
def usBadDoc : RssDoc :=
  { rss := some { channel := [
      { item := some [
        { title := ["South Africa advisory"], pubDate := ["not-a-date"] } ] } ] } }

/-- A concrete RSS item with no publish date at all. -/
def rssNoDate : RssItem := { title := ["South Africa update"] }

/-- A concrete RSS feed of 8 items of which exactly 3 mention South Africa
(case-insensitively, in the title or the description); no item carries a
publish date. -/
def feed8 : RssDoc :=
  { rss := some { channel := [
      { item := some [
        { title := ["Worldwide caution"] },
        { title := ["SOUTH AFRICA travel advisory"] },
        { title := ["Chile travel advisory"] },
        { title := ["Regional update"], description := ["Unrest in south africa"] },
        { title := ["Peru travel advisory"] },
        { title := ["Advisory: South Africa borders"] },
        { title := ["Iceland volcano notice"] },
        { title := ["Norway travel advisory"] } ] } ] } }

/-- The same 8-item feed with the same 3 matching items, except that the
first matching item carries a publish date that is present but unparseable
on host `env₀`. -/
def feed8Bad : RssDoc :=
  { rss := some { channel := [
      { item := some [
        { title := ["Worldwide caution"] },
        { title := ["SOUTH AFRICA travel advisory"], pubDate := ["not-a-date"] },
        { title := ["Chile travel advisory"] },
        { title := ["Regional update"], description := ["Unrest in south africa"] },
        { title := ["Peru travel advisory"] },
        { title := ["Advisory: South Africa borders"] },
        { title := ["Iceland volcano notice"] },
        { title := ["Norway travel advisory"] } ] } ] } }

/-- A concrete situation-reports response with one well-formed record that
has a url and a theme but omits the optional title and creation date. -/
def rwBareDoc : RwDoc :=
  { data := some [
      { id := some "123",
        fields := some
          { url := some "https://reliefweb.int/report/123",
            theme := some [{ name := some "Health" }] } }] }

/-- A concrete situation-reports record whose one theme name contains
"Security". -/
def rwRec : RwRecord :=
  { id := some "9", fields := some { theme := some [{ name := some "Food Security" }] } }

/-- A concrete news-events response with one article that has a title but
no url (and no dates). -/
def gdeltNoUrl : GdeltDoc := { articles := some [{ title := some "quiet day" }] }

/-- A concrete situation-reports response carrying just the record `rwRec`. -/
def rwSingleton : RwDoc := { data := some [rwRec] }

/-! ### Helper lemmas -/

theorem char_toNat_ofNat_valid (n : Nat) (h : n.isValidChar) :
    (Char.ofNat n).toNat = n := by
  simp [Char.ofNat, h, Char.ofNatAux, Char.toNat, UInt32.toNat, BitVec.toNat_ofNatLt]

theorem lowChar_idem (c : Char) : lowChar (lowChar c) = lowChar c := by
  unfold lowChar
  split
  · next h =>
    have hv : (c.toNat + 32).isValidChar := Or.inl (by omega)
    have ht : (Char.ofNat (c.toNat + 32)).toNat = c.toNat + 32 :=
      char_toNat_ofNat_valid _ hv
    rw [ht]
    split
    · next h2 => omega
    · rfl
  · rfl

theorem toLowerCase_idem (s : String) : toLowerCase (toLowerCase s) = toLowerCase s := by
  unfold toLowerCase
  apply congrArg String.mk
  show (s.data.map lowChar).map lowChar = s.data.map lowChar
  rw [List.map_map]
  exact List.map_congr_left fun c _ => lowChar_idem c

theorem kwSeverity_cases (s : String) :
    kwSeverity s = 3 ∨ kwSeverity s = 4 ∨ kwSeverity s = 5 := by
  unfold kwSeverity
  dsimp only
  split
  · exact Or.inr (Or.inr rfl)
  · split
    · exact Or.inr (Or.inl rfl)
    · exact Or.inl rfl

theorem mapEx_ok_of_forall {α β : Type} (f : α → Except Unit β) (g : α → β) :
    ∀ (l : List α), (∀ x ∈ l, f x = .ok (g x)) → mapEx f l = .ok (l.map g) := by
  intro l
  induction l with
  | nil => intro _; rfl
  | cons x rest ih =>
    intro h
    have hx : f x = .ok (g x) := h x (by simp)
    have hr : mapEx f rest = .ok (rest.map g) := ih fun y hy => h y (by simp [hy])
    simp [mapEx, hx, hr]

theorem mapEx_mem {α β : Type} (f : α → Except Unit β) :
    ∀ {l : List α} {ys : List β}, mapEx f l = .ok ys →
      ∀ y ∈ ys, ∃ x ∈ l, f x = .ok y := by
  intro l
  induction l with
  | nil =>
    intro ys h y hy
    simp only [mapEx] at h
    cases h
    simp at hy
  | cons x rest ih =>
    intro ys h y hy
    simp only [mapEx] at h
    split at h
    · cases h
    · next v hv =>
      split at h
      · cases h
      · next vs hvs =>
        injection h with h
        subst h
        rcases List.mem_cons.mp hy with h1 | h2
        · exact ⟨x, by simp, h1 ▸ hv⟩
        · obtain ⟨x2, hx2, hfx2⟩ := ih hvs y h2
          exact ⟨x2, by simp [hx2], hfx2⟩

theorem mapEx_error {α β : Type} (f : α → Except Unit β) :
    ∀ {l : List α} {x : α}, x ∈ l → f x = .error () → mapEx f l = .error () := by
  intro l
  induction l with
  | nil => intro x hx; simp at hx
  | cons a rest ih =>
    intro x hx hfx
    rcases List.mem_cons.mp hx with h1 | h2
    · subst h1
      simp [mapEx, hfx]
    · cases ha : f a with
      | error e => cases e; simp [mapEx, ha]
      | ok v => simp [mapEx, ha, ih h2 hfx]

theorem truthy_not_nullish {a : JSVal} (h : truthy a = true) :
    a ≠ .null ∧ a ≠ .undefined := by
  cases a <;> simp_all [truthy]

theorem jsOr_obj_ne (a : JSVal) (fs : List (String × JSVal)) :
    (jsOr a (.obj fs) ≠ .null) ∧ (jsOr a (.obj fs) ≠ .undefined) := by
  unfold jsOr
  split
  · next h => exact truthy_not_nullish h
  · simp

theorem jsGet_of_ne {v : JSVal} (h1 : v ≠ .null) (h2 : v ≠ .undefined) (k : String) :
    jsGet v k = .ok (optChain v k) := by
  cases v <;> simp_all [jsGet, optChain]

theorem jsGet_ok {v : JSVal} {k : String} {x : JSVal} (h : jsGet v k = .ok x) :
    x = optChain v k := by
  cases v <;> simp_all [jsGet, optChain]

theorem jsGet_jsOr_obj (a : JSVal) (fs : List (String × JSVal)) (k : String) :
    jsGet (jsOr a (.obj fs)) k = .ok (optChain (jsOr a (.obj fs)) k) :=
  jsGet_of_ne (jsOr_obj_ne a fs).1 (jsOr_obj_ne a fs).2 k

theorem govukAdapt_null (env : Env) : govukAdapt env .null = .error () := rfl

theorem govukAdapt_undef (env : Env) : govukAdapt env .undefined = .error () := rfl

theorem govukAdapt_total (env : Env) (data : JSVal)
    (h1 : data ≠ .null) (h2 : data ≠ .undefined) :
    govukAdapt env data = .ok (govukExpected env data) := by
  unfold govukAdapt govukExpected
  simp only [jsGet_jsOr_obj, jsGet_of_ne h1 h2]
  split
  · next hc => split at hc <;> cases hc
  · next pu hc =>
    split at hc
    · next hc2 =>
      injection hc with hc
      subst hc
      simp only [jsOr] at hc2 ⊢
      simp [hc2]
    · next hc2 =>
      injection hc with hc
      subst hc
      simp only [jsOr] at hc2 ⊢
      simp [hc2]

theorem govukAdapt_ok {env : Env} {data : JSVal} {out : ItemObj}
    (h : govukAdapt env data = .ok out) : out = govukExpected env data := by
  by_cases h1 : data = .null
  · subst h1; rw [govukAdapt_null] at h; cases h
  · by_cases h2 : data = .undefined
    · subst h2; rw [govukAdapt_undef] at h; cases h
    · rw [govukAdapt_total env data h1 h2] at h
      injection h with h
      exact h.symm

theorem govukHandler_mem {env : Env} {f : Except Unit JSVal} {it : ItemObj}
    (h : it ∈ (govukHandler env f).2) :
    ∃ data, f = .ok data ∧ it = govukExpected env data := by
  unfold govukHandler at h
  split at h
  · simp at h
  · next data =>
    split at h
    · simp at h
    · next out hout =>
      simp at h
      subst h
      exact ⟨data, rfl, govukAdapt_ok hout⟩

theorem usHandler_mem {env : Env} {f : Except Unit RssDoc} {it : ItemObj}
    (h : it ∈ (usHandler env f).2) :
    ∃ x ts, usTs env x = .ok ts ∧ it = usItemWith x ts := by
  unfold usHandler at h
  split at h
  · simp at h
  · next j =>
    split at h
    · simp at h
    · next items hitems =>
      have h2 : it ∈ items := List.take_subset 5 items h
      obtain ⟨x, _, hfx⟩ := mapEx_mem _ hitems it h2
      unfold usAdaptItem at hfx
      split at hfx
      · cases hfx
      · next ts hts =>
        injection hfx with hfx
        exact ⟨x, ts, hts, hfx.symm⟩

theorem rwHandler_mem {f : Except Unit RwDoc} {it : ItemObj}
    (h : it ∈ (rwHandler f).2) : ∃ d, it = rwAdaptRecord d := by
  unfold rwHandler at h
  split at h
  · simp at h
  · next doc =>
    simp only [List.mem_map] at h
    obtain ⟨d, _, hd⟩ := h
    exact ⟨d, hd.symm⟩

theorem gdeltHandler_mem {env : Env} {f : Except Unit GdeltDoc} {it : ItemObj}
    (h : it ∈ (gdeltHandler env f).2) :
    ∃ a ts, gdeltTs env a = .ok ts ∧ it = gdeltItemWith a ts := by
  unfold gdeltHandler at h
  split at h
  · simp at h
  · next doc =>
    split at h
    · simp at h
    · next items hitems =>
      obtain ⟨a, _, hfa⟩ := mapEx_mem _ hitems it h
      unfold gdeltAdaptArticle at hfa
      split at hfa
      · cases hfa
      · next ts hts =>
        injection hfa with hfa
        exact ⟨a, ts, hts, hfa.symm⟩

theorem usAdaptItem_of_dateOk {env : Env} {x : RssItem} (h : usDateOk env x = true) :
    usAdaptItem env x = .ok (usItemOf env x) := by
  unfold usDateOk at h
  cases hs : x.pubDate.head? with
  | none => simp [usAdaptItem, usItemOf, usTs, hs, Except.toOption]
  | some s =>
    simp only [hs] at h
    by_cases he : s = ""
    · simp [usAdaptItem, usItemOf, usTs, hs, he, Except.toOption]
    · cases hp : env.parseDate s with
      | none => rw [hp] at h; simp [he] at h
      | some t => simp [usAdaptItem, usItemOf, usTs, hs, he, hp, Except.toOption]

theorem usAdaptItem_error_of_dateBad {env : Env} {x : RssItem}
    (h : usDateOk env x = false) : usAdaptItem env x = .error () := by
  unfold usDateOk at h
  cases hs : x.pubDate.head? with
  | none => simp only [hs] at h; cases h
  | some s =>
    simp only [hs] at h
    by_cases he : s = ""
    · simp [he] at h
    · cases hp : env.parseDate s with
      | some t => rw [hp] at h; simp [he] at h
      | none => simp [usAdaptItem, usTs, hs, he, hp]

theorem gdeltArticle_of_dateOk {env : Env} {a : GdeltArticle}
    (h : gdeltDateOk env a = true) :
    ∃ ts, gdeltAdaptArticle env a = .ok (gdeltItemWith a ts) := by
  unfold gdeltDateOk at h
  cases hs : jsOrO a.seendate a.timestamp with
  | none =>
    refine ⟨env.toISO env.nowMs, ?_⟩
    simp [gdeltAdaptArticle, gdeltTs, hs]
  | some s =>
    simp only [hs] at h
    by_cases he : s = ""
    · refine ⟨env.toISO env.nowMs, ?_⟩
      simp [gdeltAdaptArticle, gdeltTs, hs, he]
    · cases hp : env.parseDate s with
      | none => rw [hp] at h; simp [he] at h
      | some t =>
        refine ⟨env.toISO t, ?_⟩
        simp [gdeltAdaptArticle, gdeltTs, hs, he, hp]

theorem gdeltArticle_error_of_dateBad {env : Env} {a : GdeltArticle}
    (h : gdeltDateOk env a = false) : gdeltAdaptArticle env a = .error () := by
  unfold gdeltDateOk at h
  cases hs : jsOrO a.seendate a.timestamp with
  | none => simp only [hs] at h; cases h
  | some s =>
    simp only [hs] at h
    by_cases he : s = ""
    · simp [he] at h
    · cases hp : env.parseDate s with
      | some t => rw [hp] at h; simp [he] at h
      | none => simp [gdeltAdaptArticle, gdeltTs, hs, he, hp]

/-! ### Claims -/

/-- C3: the severity classifier is a pure, case-insensitive keyword match
returning an integer in 3..5 with first-match-wins priority (5-keywords,
then 4-keywords, else 3); it never throws on empty or undefined input
(the default parameter treats these as the empty string), mixed-case input
classifies identically to its lowercase form, and the four concrete
examples evaluate as stated. -/
theorem kwSeverity_spec :
    kwSeverity "a bomb exploded" = 5 ∧
    kwSeverity "violent protest erupts" = 4 ∧
    kwSeverity "routine embassy update" = 3 ∧
    kwSeverity "" = 3 ∧
    kwSeverityJS none = 3 ∧
    (∀ s : String, kwSeverityJS (some s) = kwSeverity s) ∧
    (∀ s : String, kwSeverity s = 3 ∨ kwSeverity s = 4 ∨ kwSeverity s = 5) ∧
    (∀ s : String, kwSeverity (toLowerCase s) = kwSeverity s) := by
  refine ⟨by decide, by decide, by decide, by decide, by decide,
    fun s => rfl, kwSeverity_cases, fun s => ?_⟩
  simp only [kwSeverity, toLowerCase_idem]

/-- C4, counterexample: the claim says a non-numeric `days` value falls back
to the default 21, but `parseInt("abc", 10)` is `NaN` and both `Math.min`
and `Math.max` propagate it, so the computed window is `NaN` (modelled
`none`), not 21. -/
theorem rwDays_nonNumeric_not_default :
    rwDays (some "abc") = none ∧ rwDays (some "abc") ≠ some 21 := by
  constructor
  · decide
  · decide

/-- C4 (amended): the documented clamps and defaults hold — `days` "0"
clamps to 1, "9999" clamps to 60, absent defaults to 21; `hours` "500"
clamps to 168, absent defaults to 24; every numeric parse is clamped into
the documented range — but an entirely non-numeric `days` value yields
`NaN` (no clamping, no fallback to 21). -/
theorem window_clamping :
    rwDays (some "0") = some 1 ∧
    rwDays (some "9999") = some 60 ∧
    rwDays none = some 21 ∧
    gdeltHours (some "500") = some 168 ∧
    gdeltHours none = some 24 ∧
    rwDays (some "abc") = none ∧
    (∀ q v, rwDays q = some v → 1 ≤ v ∧ v ≤ 60) ∧
    (∀ q v, gdeltHours q = some v → 1 ≤ v ∧ v ≤ 168) := by
  refine ⟨by decide, by decide, by decide, by decide, by decide, by decide, ?_, ?_⟩
  · intro q v h
    unfold rwDays clampNaN at h
    cases hp : jsParseInt10 (qstrOr q "21") with
    | none => rw [hp] at h; cases h
    | some x =>
      rw [hp] at h
      injection h with h
      subst h
      constructor
      · exact le_max_left 1 _
      · have : min 60 x ≤ 60 := min_le_left 60 x
        omega
  · intro q v h
    unfold gdeltHours clampNaN at h
    cases hp : jsParseInt10 (qstrOr q "24") with
    | none => rw [hp] at h; cases h
    | some x =>
      rw [hp] at h
      injection h with h
      subst h
      constructor
      · exact le_max_left 1 _
      · have : min 168 x ≤ 168 := min_le_left 168 x
        omega

/-- C4, witness: the amended clamp theorem applied at the concrete absent
`days` parameter, whose default 21 indeed lies in the range. -/
theorem window_clamping_witness :
    rwDays none = some 21 ∧ (1 ≤ (21 : Int) ∧ (21 : Int) ≤ 60) :=
  ⟨by decide, window_clamping.2.2.2.2.2.2.1 none 21 (by decide)⟩

/-- C9: each handler is a pure function of the fetch outcome and the host
environment — no server-side state exists in the model, mirroring the
code's lack of mutable module state — so two immediately successive calls
with identical inputs (same query, same upstream response, same clock
reading) return structurally identical `(status, body)` pairs. -/
theorem handlers_idempotent :
    (∀ (env : Env) (f : Except Unit JSVal),
      (callTwice (govukHandler env) f).1 = (callTwice (govukHandler env) f).2) ∧
    (∀ (env : Env) (f : Except Unit RssDoc),
      (callTwice (usHandler env) f).1 = (callTwice (usHandler env) f).2) ∧
    (∀ f : Except Unit RwDoc,
      (callTwice rwHandler f).1 = (callTwice rwHandler f).2) ∧
    (∀ (env : Env) (f : Except Unit GdeltDoc),
      (callTwice (gdeltHandler env) f).1 = (callTwice (gdeltHandler env) f).2) :=
  ⟨fun _ _ => rfl, fun _ _ => rfl, fun _ => rfl, fun _ _ => rfl⟩

/-- C1: whenever the fetch/parse step fails (the caught `Except.error`
covers network errors, non-2xx statuses, malformed bodies and timeouts) or
the adaptation step throws, every one of the four handlers responds with
exactly the empty array and HTTP status 200; and the status is 200 on every
input whatsoever. -/
theorem failure_yields_empty_200 :
    (∀ (env : Env) (f : Except Unit JSVal), (govukHandler env f).1 = 200) ∧
    (∀ (env : Env) (f : Except Unit RssDoc), (usHandler env f).1 = 200) ∧
    (∀ f : Except Unit RwDoc, (rwHandler f).1 = 200) ∧
    (∀ (env : Env) (f : Except Unit GdeltDoc), (gdeltHandler env f).1 = 200) ∧
    (∀ env : Env, govukHandler env (.error ()) = (200, [])) ∧
    (∀ env : Env, usHandler env (.error ()) = (200, [])) ∧
    rwHandler (.error ()) = (200, []) ∧
    (∀ env : Env, gdeltHandler env (.error ()) = (200, [])) ∧
    (∀ (env : Env) (data : JSVal), govukAdapt env data = .error () →
      govukHandler env (.ok data) = (200, [])) ∧
    (∀ (env : Env) (j : RssDoc), usAdapt env j = .error () →
      usHandler env (.ok j) = (200, [])) ∧
    (∀ (env : Env) (doc : GdeltDoc), gdeltAdapt env doc = .error () →
      gdeltHandler env (.ok doc) = (200, [])) := by
  refine ⟨?_, ?_, ?_, ?_, fun _ => rfl, fun _ => rfl, rfl, fun _ => rfl, ?_, ?_, ?_⟩
  · intro env f
    unfold govukHandler
    split
    · rfl
    · split <;> rfl
  · intro env f
    unfold usHandler
    split
    · rfl
    · split <;> rfl
  · intro f
    unfold rwHandler
    split <;> rfl
  · intro env f
    unfold gdeltHandler
    split
    · rfl
    · split <;> rfl
  · intro env data h
    simp [govukHandler, h]
  · intro env j h
    simp [usHandler, h]
  · intro env doc h
    simp [gdeltHandler, h]

/-- C1, witness: on the concrete host `env₀` (which parses no date string),
the RSS feed `usBadDoc` carries a matching item with an unparseable publish
date, so its adaptation throws; the theorem then forces the `(200, [])`
response. -/
theorem failure_yields_empty_200_witness :
    usAdapt env₀ usBadDoc = .error () ∧ usHandler env₀ (.ok usBadDoc) = (200, []) :=
  ⟨rfl, failure_yields_empty_200.2.2.2.2.2.2.2.2.2.1 env₀ usBadDoc rfl⟩

theorem usHandler_eq_of_dateOk (env : Env) (j : RssDoc)
    (h : ∀ x ∈ (rssItems j).filter rssMatchesZA, usDateOk env x = true) :
    usHandler env (.ok j) =
      (200, (((rssItems j).filter rssMatchesZA).map (usItemOf env)).take 5) := by
  have hmap : mapEx (usAdaptItem env) ((rssItems j).filter rssMatchesZA) =
      .ok (((rssItems j).filter rssMatchesZA).map (usItemOf env)) :=
    mapEx_ok_of_forall _ _ _ fun x hx => usAdaptItem_of_dateOk (h x hx)
  simp [usHandler, usAdapt, hmap]

/-- C6, counterexample: the claim asserts unconditionally that a feed with
8 items of which 3 match yields exactly 3 items, but when one of the
matching items carries a present, unparseable publish date the date
conversion throws inside the map and the catch empties the whole response:
`feed8Bad` has 8 items and 3 matches yet yields `(200, [])`, length 0. -/
theorem rss_bad_date_defeats_count :
    usHandler env₀ (.ok feed8Bad) = (200, []) ∧
    ((rssItems feed8Bad).filter rssMatchesZA).length = 3 ∧
    (rssItems feed8Bad).length = 8 := ⟨rfl, rfl, rfl⟩

/-- C6 (amended): provided every retained item's publish date is missing,
empty or parseable (a present unparseable date instead empties the whole
response, as the counterexample shows), the RSS adapter keeps exactly the
channel items whose title or description contains "south africa"
case-insensitively (items missing both fields never match), maps them in
upstream order, and caps the response at the first 5 matches — the body is
literally the filtered list, mapped, truncated to 5, and its length is
`min 5` of the match count. -/
theorem usHandler_filter_cap :
    (∀ (env : Env) (j : RssDoc),
      (∀ x ∈ (rssItems j).filter rssMatchesZA, usDateOk env x = true) →
      usHandler env (.ok j) =
        (200, (((rssItems j).filter rssMatchesZA).map (usItemOf env)).take 5)) ∧
    (∀ (env : Env) (j : RssDoc),
      (∀ x ∈ (rssItems j).filter rssMatchesZA, usDateOk env x = true) →
      (usHandler env (.ok j)).2.length =
        min 5 ((rssItems j).filter rssMatchesZA).length) ∧
    (∀ x : RssItem, x.title.head? = none → x.description.head? = none →
      rssMatchesZA x = false) := by
  refine ⟨usHandler_eq_of_dateOk, ?_, ?_⟩
  · intro env j h
    rw [usHandler_eq_of_dateOk env j h]
    simp [List.length_take]
  · intro x h1 h2
    unfold rssMatchesZA
    rw [h1, h2]
    decide

/-- C6, witness: the filter/cap theorem applied to the concrete 8-item feed
`feed8`, of which exactly 3 items mention South Africa: the body is the
mapped filtered list and has length 3. -/
theorem usHandler_filter_cap_witness :
    usHandler env₀ (.ok feed8) =
      (200, (((rssItems feed8).filter rssMatchesZA).map (usItemOf env₀)).take 5) ∧
    (usHandler env₀ (.ok feed8)).2.length = 3 :=
  ⟨usHandler_filter_cap.1 env₀ feed8 (by decide), by rfl⟩

/-- C5, counterexample: the claim says a record with an unparseable date is
still emitted with `ts` = current time; instead `toISOString` throws on the
Invalid Date, the handler catches, and the whole response is the empty
array — here a feed whose single matching item has publish date
"not-a-date" (unparseable on host `env₀`) yields `(200, [])`, not one item. -/
theorem unparseable_date_drops_response :
    usHandler env₀ (.ok usBadDoc) = (200, []) ∧
    ((rssItems usBadDoc).filter rssMatchesZA).length = 1 := ⟨rfl, rfl⟩

/-- C5 (amended): in the RSS and news-events adapters `ts` is parsed from
the publish-date / seen-date field and falls back to the current time when
that field is missing (the item is then still emitted); but a present,
non-empty, unparseable date string makes the date conversion throw, so the
whole endpoint response degrades to the empty array instead of a per-item
fallback. -/
theorem ts_fallback_on_missing :
    (∀ (env : Env) (x : RssItem), x.pubDate.head? = none →
      usAdaptItem env x = .ok (usItemWith x (env.toISO env.nowMs))) ∧
    (∀ (env : Env) (a : GdeltArticle), a.seendate = none → a.timestamp = none →
      gdeltAdaptArticle env a = .ok (gdeltItemWith a (env.toISO env.nowMs))) ∧
    (∀ (env : Env) (j : RssDoc) (x : RssItem),
      x ∈ (rssItems j).filter rssMatchesZA → usDateOk env x = false →
      usHandler env (.ok j) = (200, [])) ∧
    (∀ (env : Env) (doc : GdeltDoc) (a : GdeltArticle),
      a ∈ doc.articles.getD [] → gdeltDateOk env a = false →
      gdeltHandler env (.ok doc) = (200, [])) := by
  refine ⟨?_, ?_, ?_, ?_⟩
  · intro env x h
    simp [usAdaptItem, usTs, h]
  · intro env a h1 h2
    simp [gdeltAdaptArticle, gdeltTs, jsOrO, h1, h2]
  · intro env j x hx hbad
    have herr : usAdapt env j = .error () :=
      mapEx_error _ hx (usAdaptItem_error_of_dateBad hbad)
    simp [usHandler, herr]
  · intro env doc a ha hbad
    have herr : gdeltAdapt env doc = .error () :=
      mapEx_error _ ha (gdeltArticle_error_of_dateBad hbad)
    simp [gdeltHandler, herr]

/-- C5, witness: the missing-date fallback applied to a concrete RSS item
with no publish date: it is adapted successfully with `ts` the clock value. -/
theorem ts_fallback_on_missing_witness :
    usAdaptItem env₀ rssNoDate = .ok (usItemWith rssNoDate (env₀.toISO env₀.nowMs)) :=
  ts_fallback_on_missing.1 env₀ rssNoDate rfl

/-- C7, counterexample: the claim quantifies over successfully parsed JSON
documents of any shape, but the JSON document `null` (a valid parse result)
makes the `data.public_updated_at` access throw, so the handler emits the
empty array rather than exactly one item. -/
theorem govuk_null_doc_empty :
    govukHandler env₀ (.ok .null) = (200, []) ∧
    (govukHandler env₀ (.ok .null)).2.length ≠ 1 := ⟨rfl, by decide⟩

/-- C7 (amended): for every successfully parsed upstream JSON document
other than JSON `null`, the handler emits exactly one item — the one
`govukExpected` describes, with fixed id "govuk:za", fixed severity 3,
fixed source, `ts` from `details.latest_update.published` falling back to
the top-level `public_updated_at` falling back to the current time, and
`summary` from `details.change_description` falling back to
`details.summary` falling back to the static placeholder. -/
theorem govuk_single_item :
    ∀ (env : Env) (data : JSVal), data ≠ .null → data ≠ .undefined →
      govukHandler env (.ok data) = (200, [govukExpected env data]) ∧
      (govukExpected env data).id = .str "govuk:za" ∧
      (govukExpected env data).severity = .num 3 ∧
      (govukExpected env data).source = .str "gov.uk" ∧
      (govukHandler env (.ok data)).2.length = 1 := by
  intro env data h1 h2
  have h := govukAdapt_total env data h1 h2
  exact ⟨by simp [govukHandler, h], rfl, rfl, rfl, by simp [govukHandler, h]⟩

/-- C7, witness: the single-item theorem applied to the concrete empty
JSON object: the response is exactly the one expected item. -/
theorem govuk_single_item_witness :
    govukHandler env₀ (.ok (.obj [])) = (200, [govukExpected env₀ (.obj [])]) :=
  (govuk_single_item env₀ (.obj []) (fun h => nomatch h) (fun h => nomatch h)).1

theorem rwSevTest_iff (t : String) :
    rwSevTest t = true ↔
      ∃ kw ∈ (["epidemic", "conflict", "security", "protection"] : List String),
        isSubstr kw.data (toLowerCase t).data = true := by
  unfold rwSevTest containsAny
  exact List.any_eq_true

/-- C8: for every situation-reports record, the emitted item's summary is
exactly the comma-joined theme-name list, and its severity is 4 if and only
if that joined string case-insensitively contains one of epidemic,
conflict, security, protection (else 3); and every item the handler emits
arises from one upstream record this way. -/
theorem rw_severity_themes :
    (∀ d : RwRecord,
      (rwAdaptRecord d).summary = .str (rwThemes (d.fields.getD {})) ∧
      ((rwAdaptRecord d).severity = .num 4 ↔
        ∃ kw ∈ (["epidemic", "conflict", "security", "protection"] : List String),
          isSubstr kw.data (toLowerCase (rwThemes (d.fields.getD {}))).data = true) ∧
      (rwSevTest (rwThemes (d.fields.getD {})) = false →
        (rwAdaptRecord d).severity = .num 3)) ∧
    (∀ (doc : RwDoc) (it : ItemObj), it ∈ (rwHandler (.ok doc)).2 →
      ∃ d ∈ doc.data.getD [], it = rwAdaptRecord d) := by
  constructor
  · intro d
    have hsev : (rwAdaptRecord d).severity =
        .num (if rwSevTest (rwThemes (d.fields.getD {})) then 4 else 3) := rfl
    refine ⟨rfl, ?_, ?_⟩
    · rw [hsev]
      by_cases ht : rwSevTest (rwThemes (d.fields.getD {})) = true
      · rw [if_pos ht]
        exact iff_of_true rfl ((rwSevTest_iff _).mp ht)
      · rw [if_neg ht]
        refine iff_of_false (by simp) fun hex => ht ((rwSevTest_iff _).mpr hex)
    · intro hfalse
      rw [hsev, hfalse]
      rfl
  · intro doc it h
    simp only [rwHandler, List.mem_map] at h
    obtain ⟨d, hd, heq⟩ := h
    exact ⟨d, hd, heq.symm⟩

/-- C8, witness: the theorem applied to a concrete record whose one theme
is "Food Security": the summary is the joined theme list and the severity
is 4 (the word "security" occurs case-insensitively). -/
theorem rw_severity_themes_witness :
    (rwAdaptRecord rwRec).summary = .str (rwThemes (rwRec.fields.getD {})) ∧
    (rwAdaptRecord rwRec).severity = .num 4 :=
  ⟨(rw_severity_themes.1 rwRec).1,
   ((rw_severity_themes.1 rwRec).2.1).mpr ⟨"security", by decide, by decide⟩⟩

/-- C2, counterexample: the claim asserts every emitted item has all
required fields present even when the upstream record omits a title or
creation date, but the situation-reports mapping copies `f.title` and
`f["date.created"]` verbatim with no fallback: a record that omits the
title and creation date yields one emitted item whose `title` and `ts` are
both `undefined` (absent after JSON serialization). -/
theorem rw_missing_fields_emitted :
    ((rwHandler (.ok rwBareDoc)).2.map (·.title)) = [JSVal.undefined] ∧
    ((rwHandler (.ok rwBareDoc)).2.map (·.ts)) = [JSVal.undefined] ∧
    (rwHandler (.ok rwBareDoc)).2.length = 1 := ⟨rfl, rfl, rfl⟩

/-- C2 (amended): every item emitted by any of the four adapters has a
string `id`, the fixed `source` tag, an integer severity in `[1,5]` (with
the normalizer substituting the default 3 for a missing severity) and a
`links` sequence (defaulting to empty when missing); `title`, `ts` and
`summary` are copied verbatim, so they are present whenever the upstream
supplies the corresponding fields but may be absent when the
situation-reports upstream omits a title or creation date (or the
news-events upstream omits a title or domain). -/
theorem normalized_fields :
    (∀ (env : Env) (f : Except Unit JSVal) (it : ItemObj),
      it ∈ (govukHandler env f).2 → normalOut "gov.uk" it) ∧
    (∀ (env : Env) (f : Except Unit RssDoc) (it : ItemObj),
      it ∈ (usHandler env f).2 → normalOut "travel.state.gov" it) ∧
    (∀ (f : Except Unit RwDoc) (it : ItemObj),
      it ∈ (rwHandler f).2 → normalOut "reliefweb" it) ∧
    (∀ (env : Env) (f : Except Unit GdeltDoc) (it : ItemObj),
      it ∈ (gdeltHandler env f).2 → normalOut "gdelt" it) ∧
    (∀ o : ItemObj, o.severity = .undefined → (item o).severity = .num 3) ∧
    (∀ o : ItemObj, o.links = .undefined → (item o).links = .arr []) := by
  refine ⟨?_, ?_, ?_, ?_, ?_, ?_⟩
  · intro env f it h
    obtain ⟨data, -, hit⟩ := govukHandler_mem h
    subst hit
    exact ⟨⟨"govuk:za", rfl⟩, rfl, ⟨3, rfl, by norm_num⟩, ⟨_, rfl⟩⟩
  · intro env f it h
    obtain ⟨x, ts, -, hit⟩ := usHandler_mem h
    subst hit
    exact ⟨⟨_, rfl⟩, rfl, ⟨3, rfl, by norm_num⟩, ⟨_, rfl⟩⟩
  · intro f it h
    obtain ⟨d, hit⟩ := rwHandler_mem h
    subst hit
    refine ⟨⟨_, rfl⟩, rfl, ?_, ⟨_, rfl⟩⟩
    by_cases ht : rwSevTest (rwThemes (d.fields.getD {})) = true
    · exact ⟨4, by simp [rwAdaptRecord, item, nullishOr, ht], by norm_num⟩
    · exact ⟨3, by simp [rwAdaptRecord, item, nullishOr, ht], by norm_num⟩
  · intro env f it h
    obtain ⟨a, ts, -, hit⟩ := gdeltHandler_mem h
    subst hit
    refine ⟨⟨_, rfl⟩, rfl, ?_, ⟨_, rfl⟩⟩
    refine ⟨(kwSeverity (jsStr a.title ++ " " ++ jsStr a.url) : Nat), rfl, ?_⟩
    rcases kwSeverity_cases (jsStr a.title ++ " " ++ jsStr a.url) with hk | hk | hk <;>
      rw [hk] <;> norm_num
  · intro o h
    simp [item, nullishOr, h]
  · intro o h
    simp [item, jsOr, truthy, h]

/-- C2, witness: the reliefweb clause applied to the item emitted for the
concrete record `rwRec`: it satisfies the normal-output predicate. -/
theorem normalized_fields_witness :
    normalOut "reliefweb" (rwAdaptRecord rwRec) :=
  normalized_fields.2.2.1 (.ok rwSingleton) (rwAdaptRecord rwRec) (List.Mem.head _)

/-- C10, counterexample: the claim says every adapter substitutes a static
fallback URL where the upstream link may be absent, but the news-events
mapping builds `[a.url]` with no fallback: an article without a url yields
an emitted item whose single links entry is `undefined` (serialized
`null`), not a URL string. -/
theorem gdelt_links_entry_absent :
    ((gdeltHandler env₀ (.ok gdeltNoUrl)).2.map (·.links)) = [JSVal.arr [JSVal.undefined]] ∧
    (gdeltHandler env₀ (.ok gdeltNoUrl)).2.length = 1 := ⟨rfl, rfl⟩

/-- C10 (amended): every item emitted by any of the four adapters has a
links sequence of length exactly one, so the normalizer's empty-links
default is never exercised on an emitted item; the government-advice
adapter uses a fixed URL, the RSS adapter substitutes the static
travel.state.gov URL when the item's link is absent, while the
situation-reports and news-events adapters put the upstream url in the
one-element array verbatim — possibly as an absent entry. -/
theorem links_length_one :
    (∀ (env : Env) (f : Except Unit JSVal) (it : ItemObj),
      it ∈ (govukHandler env f).2 → ∃ l, it.links = .arr l ∧ l.length = 1) ∧
    (∀ (env : Env) (f : Except Unit RssDoc) (it : ItemObj),
      it ∈ (usHandler env f).2 → ∃ l, it.links = .arr l ∧ l.length = 1) ∧
    (∀ (f : Except Unit RwDoc) (it : ItemObj),
      it ∈ (rwHandler f).2 → ∃ l, it.links = .arr l ∧ l.length = 1) ∧
    (∀ (env : Env) (f : Except Unit GdeltDoc) (it : ItemObj),
      it ∈ (gdeltHandler env f).2 → ∃ l, it.links = .arr l ∧ l.length = 1) ∧
    (∀ (x : RssItem) (ts : String), x.link.head? = none →
      (usItemWith x ts).links = .arr [.str "https://travel.state.gov"]) ∧
    (∀ d : RwRecord,
      (rwAdaptRecord d).links = .arr [optStr ((d.fields.getD {}).url)]) ∧
    (∀ (a : GdeltArticle) (ts : String),
      (gdeltItemWith a ts).links = .arr [optStr a.url]) := by
  refine ⟨?_, ?_, ?_, ?_, ?_, fun d => rfl, fun a ts => rfl⟩
  · intro env f it h
    obtain ⟨data, -, hit⟩ := govukHandler_mem h
    subst hit
    exact ⟨_, rfl, rfl⟩
  · intro env f it h
    obtain ⟨x, ts, -, hit⟩ := usHandler_mem h
    subst hit
    exact ⟨_, rfl, rfl⟩
  · intro f it h
    obtain ⟨d, hit⟩ := rwHandler_mem h
    subst hit
    exact ⟨_, rfl, rfl⟩
  · intro env f it h
    obtain ⟨a, ts, -, hit⟩ := gdeltHandler_mem h
    subst hit
    exact ⟨_, rfl, rfl⟩
  · intro x ts h
    simp [usItemWith, item, jsOr, truthy, jsOrO, jsStr, h]

/-- C10, witness: the length-one property applied to the item the gov.uk
handler emits for the concrete empty JSON object. -/
theorem links_length_one_witness :
    ∃ l, (govukExpected env₀ (.obj [])).links = .arr l ∧ l.length = 1 :=
  links_length_one.1 env₀ (.ok (.obj [])) (govukExpected env₀ (.obj [])) (List.Mem.head _)
